import Mathlib

/-!
Shallow embedding of the baul storage-access layer
(`src-tauri/src/services/s3_service.rs`, `src-tauri/src/commands/object.rs`,
`src-tauri/src/error.rs`, `src-tauri/src/models/*`), together with proofs
about the embedded operations.  Backend effects (the OpenDAL lister, the
AWS SDK client) are modelled as explicit inputs: an entry stream for the
generic listing path, a page list for the ListObjectsV2 pagination
protocol, and outcome oracles for fallible calls.
-/

namespace Baul

/-- Provider tags, from `models/connection.rs` (`enum S3Provider`). -/
inductive S3Provider where
  | Aws
  | Minio
  | CloudflareR2
  | Digitalocean
  | Backblaze
  | Wasabi
  | Custom
deriving DecidableEq, Repr

/-- Connection record with secret attached, from `models/connection.rs`
(`struct S3ConnectionWithSecret`). -/
structure S3ConnectionWithSecret where
  id : String
  name : String
  provider : S3Provider
  endpoint : String
  region : String
  access_key : String
  secret_key : String
  use_ssl : Bool
  use_path_style : Bool
  created_at : Int
  updated_at : Int
deriving DecidableEq, Repr

/-- Error taxonomy, from `error.rs` (`enum AppError`); payloads of the
`#[from]` variants are modelled by their display strings. -/
inductive AppError where
  | S3Error (msg : String)
  | ConfigError (msg : String)
  | ConnectionNotFound (id : String)
  | IoError (msg : String)
  | SerializationError (msg : String)
  | KeyringError (msg : String)
  | OpendalError (msg : String)
deriving DecidableEq, Repr

/-- Listed object, from `models/object.rs` (`struct S3Object`). -/
structure S3Object where
  key : String
  size : Nat
  last_modified : Int
  etag : Option String
  content_type : Option String
  is_directory : Bool
deriving DecidableEq, Repr

/-- Listing page, from `models/object.rs` (`struct ListObjectsResult`). -/
structure ListObjectsResult where
  objects : List S3Object
  prefixes : List String
  continuation_token : Option String
  is_truncated : Bool
deriving DecidableEq, Repr

/-- Bucket statistics, from `models/bucket.rs` (`struct BucketStats`). -/
structure BucketStats where
  name : String
  object_count : Nat
  total_size : Nat
deriving DecidableEq, Repr

/-- State of the OpenDAL `S3` builder that `S3Service::create_operator`
configures: the always-set fields plus the two provider-dependent knobs
(`delete_max_size`, `enable_virtual_host_style`). -/
structure S3Builder where
  bucket : String
  endpoint : String
  region : String
  access_key_id : String
  secret_access_key : String
  delete_max_size : Option Nat
  virtual_host_style : Bool
deriving DecidableEq, Repr

/-- `S3Service::create_operator` (s3_service.rs:19-59): base builder from the
connection record, then the provider-specific `match`. -/
def create_operator (connection : S3ConnectionWithSecret) (bucket : String) :
    S3Builder :=
  let builder : S3Builder :=
    { bucket := bucket
      endpoint := connection.endpoint
      region := connection.region
      access_key_id := connection.access_key
      secret_access_key := connection.secret_key
      delete_max_size := none
      virtual_host_style := false }
  match connection.provider with
  | .CloudflareR2 =>
      { builder with delete_max_size := some 700 }
  | .Minio =>
      if !connection.use_path_style then
        { builder with virtual_host_style := true }
      else builder
  | _ =>
      if !connection.use_path_style then
        { builder with virtual_host_style := true }
      else builder

/-- Does the string end in the character `/` (Rust `str::ends_with('/')`)? -/
def endsWithSlash (s : String) : Bool :=
  match s.toList.getLast? with
  | some c => c = '/'
  | none => false

/-- Entry metadata as exposed by the OpenDAL lister (`Entry::metadata`). -/
structure EntryMeta where
  is_dir : Bool
  content_length : Nat
  last_modified : Option Int
  etag : Option String
  content_type : Option String
deriving DecidableEq, Repr

/-- One entry of the backend's listing stream (OpenDAL `Entry`). -/
structure Entry where
  path : String
  metadata : EntryMeta
deriving DecidableEq, Repr

/-- Prefix normalization shared by `list_objects` and `list_all_objects`
(s3_service.rs:119-125 and 181-187): empty stays empty, otherwise the
prefix is made to end with `/`. -/
def prefix_with_delimiter (pfx : String) : String :=
  if pfx = "" then ""
  else if endsWithSlash pfx then pfx
  else pfx ++ "/"

/-- The `S3Object` built from one non-directory entry
(s3_service.rs:153-160). -/
def entryToObject (path : String) (meta : EntryMeta) : S3Object :=
  { key := path
    size := meta.content_length
    last_modified := meta.last_modified.getD 0
    etag := meta.etag
    content_type := meta.content_type
    is_directory := false }

/-- Effective page limit of `S3Service::list_objects`
(s3_service.rs:128): `max_keys.unwrap_or(500).min(1000)`. -/
def effective_limit (max_keys : Option Nat) : Nat :=
  min (max_keys.getD 500) 1000

/-- The `while let` loop of `S3Service::list_objects` (s3_service.rs:133-170):
`count` is the number of entries consumed so far; when an entry is pulled
with `count >= limit` the page returns early, truncated, with token
`offset:{count}`. -/
def list_objects_go (limit : Nat) (count : Nat) :
    List Entry → ListObjectsResult
  | [] =>
      { objects := [], prefixes := [], continuation_token := none
        is_truncated := false }
  | e :: rest =>
      if count ≥ limit then
        { objects := [], prefixes := []
          continuation_token := some ("offset:" ++ toString count)
          is_truncated := true }
      else
        let r := list_objects_go limit (count + 1) rest
        if e.metadata.is_dir || endsWithSlash e.path then
          { r with prefixes := e.path :: r.prefixes }
        else
          { r with objects := entryToObject e.path e.metadata :: r.objects }

/-- `S3Service::list_objects` (s3_service.rs:111-171).  The backend lister is
modelled as a function from the (normalized) listing prefix to the entry
stream it yields. -/
def list_objects (lister : String → List Entry) (pfx : String)
    (max_keys : Option Nat) : ListObjectsResult :=
  list_objects_go (effective_limit max_keys) 0
    (lister (prefix_with_delimiter pfx))

/-- The loop of `S3Service::list_all_objects` (s3_service.rs:191-208): same
classification as `list_objects_go`, no limit. -/
def list_all_objects_go : List Entry → ListObjectsResult
  | [] =>
      { objects := [], prefixes := [], continuation_token := none
        is_truncated := false }
  | e :: rest =>
      let r := list_all_objects_go rest
      if e.metadata.is_dir || endsWithSlash e.path then
        { r with prefixes := e.path :: r.prefixes }
      else
        { r with objects := entryToObject e.path e.metadata :: r.objects }

/-- `S3Service::list_all_objects` (s3_service.rs:174-216). -/
def list_all_objects (lister : String → List Entry) (pfx : String) :
    ListObjectsResult :=
  list_all_objects_go (lister (prefix_with_delimiter pfx))

/-- One object of a ListObjectsV2 response (`result.contents()`); the SDK
reports the size as optional (`object.size().unwrap_or(0)`). -/
structure SdkObject where
  key : String
  size : Option Nat
deriving DecidableEq, Repr

/-- One ListObjectsV2 response as consumed by `get_bucket_stats`
(s3_service.rs:459-473): contents, `is_truncated`, and the next
continuation token (modelled as an opaque page index). -/
structure V2Response where
  contents : List SdkObject
  is_truncated : Option Bool
  next_continuation_token : Option Nat
deriving DecidableEq, Repr

/-- Well-behaved ListObjectsV2 backend over a fixed page list: the request
carrying token `i` (no token ⇒ `0`) returns page `i`; `is_truncated` is
`some true` exactly when further pages exist, and then the next token is
present. -/
def list_objects_v2 (pages : List (List SdkObject)) (token : Option Nat) :
    V2Response :=
  let idx := token.getD 0
  { contents := pages.getD idx []
    is_truncated := some (decide (idx + 1 < pages.length))
    next_continuation_token :=
      if idx + 1 < pages.length then some (idx + 1) else none }

/-- Size accumulation of one page by the `for object in result.contents()`
loop of `get_bucket_stats` (s3_service.rs:464-467). -/
def pageSize (contents : List SdkObject) : Nat :=
  (contents.map fun o => o.size.getD 0).sum

/-- The `loop` of `S3Service::get_bucket_stats` (s3_service.rs:452-474):
send the request with the current token, add `contents().len()` to the
count and the sizes to the total, continue on `is_truncated == Some(true)`
with the next token, else break. -/
def get_bucket_stats_go (pages : List (List SdkObject)) (idx : Nat)
    (object_count : Nat) (total_size : Nat) : Nat × Nat :=
  let result := list_objects_v2 pages (some idx)
  let object_count := object_count + result.contents.length
  let total_size := total_size + pageSize result.contents
  if h : result.is_truncated = some true then
    match h2 : result.next_continuation_token with
    | some t => get_bucket_stats_go pages t object_count total_size
    | none => (object_count, total_size)
  else (object_count, total_size)
termination_by pages.length - idx
decreasing_by
  unfold result at h h2
  simp only [list_objects_v2, Option.getD, Option.some.injEq,
    decide_eq_true_eq] at h h2
  rw [if_pos h] at h2
  simp only [Option.some.injEq] at h2
  omega

/-- `S3Service::get_bucket_stats` (s3_service.rs:442-481): start with no
token (the model's page index `0`), accumulate from zero. -/
def get_bucket_stats (pages : List (List SdkObject)) (bucket_name : String) :
    BucketStats :=
  let (object_count, total_size) := get_bucket_stats_go pages 0 0 0
  { name := bucket_name, object_count := object_count
    total_size := total_size }

/-- Backend calls observable in the rename model. -/
inductive S3Op where
  | copy (src : String) (dst : String)
  | deleteKey (key : String)
deriving DecidableEq, Repr

/-- Single-bucket backend state for the copy/delete/rename operations: the
object store as an association list from key to content bytes, plus fault
switches for the two backend calls. -/
structure Backend where
  store : List (String × List Nat)
  copy_fails : Bool
  delete_fails : Bool
deriving DecidableEq, Repr

/-- Lookup of a key in the modelled store. -/
def lookupKey : List (String × List Nat) → String → Option (List Nat)
  | [], _ => none
  | (a, b) :: rest, k => if k = a then some b else lookupKey rest k

/-- Removal of a key from the modelled store. -/
def removeKey : List (String × List Nat) → String → List (String × List Nat)
  | [], _ => []
  | (a, b) :: rest, k =>
      if a = k then removeKey rest k else (a, b) :: removeKey rest k

/-- Overwriting insertion into the modelled store. -/
def setKey (store : List (String × List Nat)) (k : String) (v : List Nat) :
    List (String × List Nat) :=
  (k, v) :: removeKey store k

/-- `S3Service::copy_object` (s3_service.rs:369-390) against the modelled
backend: one administrative copy call; it fails (leaving the store
unchanged) when the backend faults or the source key is absent, otherwise
the destination key receives the source's content.  Returns the new state,
the backend calls performed, and the error, if any. -/
def copy_object (b : Backend) (source_key : String) (dest_key : String) :
    Backend × List S3Op × Option AppError :=
  if b.copy_fails then
    (b, [.copy source_key dest_key], some (.S3Error "copy failed"))
  else
    match lookupKey b.store source_key with
    | none => (b, [.copy source_key dest_key], some (.S3Error "NoSuchKey"))
    | some v =>
        ({ b with store := setKey b.store dest_key v },
          [.copy source_key dest_key], none)

/-- `S3Service::delete_object` (s3_service.rs:228-231) against the modelled
backend: deletes the key (idempotently — a missing key is not an error)
unless the backend faults, in which case the store is unchanged. -/
def delete_object (b : Backend) (key : String) :
    Backend × List S3Op × Option AppError :=
  if b.delete_fails then
    (b, [.deleteKey key], some (.S3Error "delete failed"))
  else
    ({ b with store := removeKey b.store key }, [.deleteKey key], none)

/-- `S3Service::rename_object` (s3_service.rs:392-405): copy old to new,
then delete old; the `?` after the copy propagates a copy failure before
any delete is attempted, and a delete failure propagates with no further
backend call (no rollback). -/
def rename_object (b : Backend) (old_key : String) (new_key : String) :
    Backend × List S3Op × Option AppError :=
  match copy_object b old_key new_key with
  | (b1, t1, some e) => (b1, t1, some e)
  | (b1, t1, none) =>
      match delete_object b1 old_key with
      | (b2, t2, r) => (b2, t1 ++ t2, r)

/-- Backend calls observable in the text-preview model. -/
inductive ReadOp where
  | statCall
  | readCall
deriving DecidableEq, Repr

/-- `S3Service::get_object_content_as_text` (s3_service.rs:282-302): stat
first; if the reported size exceeds `max_size` return the "File too large"
error with no read call; otherwise read the body and decode it.  The
standard library's UTF-8 decoder (`String::from_utf8`) is an external
function, passed in as `utf8_decode`; `stat_size` is the content length
the backend reports and `body` the bytes a read returns.  Returns the
backend calls performed and the result. -/
def get_object_content_as_text (utf8_decode : List Nat → Option String)
    (stat_size : Nat) (body : List Nat) (max_size : Nat) :
    List ReadOp × Except AppError String :=
  if stat_size > max_size then
    ([.statCall],
      .error (.S3Error ("File too large for text preview: " ++
        toString stat_size ++ " bytes (max: " ++ toString max_size ++
        " bytes)")))
  else
    match utf8_decode body with
    | none =>
        ([.statCall, .readCall],
          .error (.S3Error "Not a valid UTF-8 text file"))
    | some text => ([.statCall, .readCall], .ok text)

/-- The bucket-creation request `S3Service::create_bucket` sends
(s3_service.rs:305-335): the bucket name and the optional
`CreateBucketConfiguration` location constraint. -/
structure CreateBucketRequest where
  bucket : String
  location_constraint : Option String
deriving DecidableEq, Repr

/-- `S3Service::create_bucket` (s3_service.rs:305-335): the effective region
is the explicit argument if present, else the connection's region; for
`us-east-1` no `LocationConstraint` is sent, otherwise the constraint is
built from the region string. -/
def create_bucket (connection : S3ConnectionWithSecret)
    (bucket_name : String) (region : Option String) : CreateBucketRequest :=
  let region_str := region.getD connection.region
  if region_str = "us-east-1" then
    { bucket := bucket_name, location_constraint := none }
  else
    { bucket := bucket_name, location_constraint := some region_str }

/-- Does `pat` occur as a substring of `s` (Rust `str::contains`)? -/
def containsSubstring (s pat : String) : Bool :=
  s.toList.tails.any fun t => pat.toList.isPrefixOf t

/-- The "not found" recognition of `S3Service::head_bucket`
(s3_service.rs:417): the error's display string contains `"404"` or
`"NotFound"`. -/
def is_not_found_error (msg : String) : Bool :=
  containsSubstring msg "404" || containsSubstring msg "NotFound"

/-- Outcome of the backend `head_bucket` call, identified by the error's
display string on failure. -/
inductive HeadBucketOutcome where
  | success
  | failure (msg : String)
deriving DecidableEq, Repr

/-- `S3Service::head_bucket` (s3_service.rs:407-424): success maps to
`Ok(true)`, a failure recognized as "not found" to `Ok(false)`, any other
failure to an `S3Error` carrying the backend's message. -/
def head_bucket (outcome : HeadBucketOutcome) : Except AppError Bool :=
  match outcome with
  | .success => .ok true
  | .failure msg =>
      if is_not_found_error msg then .ok false
      else .error (.S3Error msg)

/-- The per-key loop of the `delete_objects` command
(commands/object.rs:218-236): delete each key in list order through
`S3Service::delete_object`, returning the first error immediately; `fail`
is the backend oracle giving each key's delete outcome.  Returns the keys
for which a delete was attempted, in order, and the result. -/
def delete_objects (fail : String → Option AppError) :
    List String → List String × Option AppError
  | [] => ([], none)
  | key :: rest =>
      match fail key with
      | some e => ([key], some e)
      | none =>
          let (attempted, r) := delete_objects fail rest
          (key :: attempted, r)

/-- Concrete connection record used in closed evaluations. -/
def sampleConn (provider : S3Provider) (use_path_style : Bool) :
    S3ConnectionWithSecret :=
  { id := "c1", name := "conn", provider := provider
    endpoint := "http://localhost:9000", region := "us-east-1"
    access_key := "ak", secret_key := "sk", use_ssl := false
    use_path_style := use_path_style, created_at := 0, updated_at := 0 }

/-- Concrete backend state used in closed evaluations: one object `old`
with bytes `[1, 2, 3]`, copy working, delete as requested. -/
def sampleBackend (delete_fails : Bool) : Backend :=
  { store := [("old", [1, 2, 3])], copy_fails := false
    delete_fails := delete_fails }

/-- A listing-stream entry for a plain object key with a size: not marked
as a directory by the backend. -/
def entryOfKey (p : String × Nat) : Entry :=
  { path := p.1
    metadata :=
      { is_dir := false, content_length := p.2, last_modified := none
        etag := none, content_type := none } }

/-- The same key/size pair as a ListObjectsV2 contents object. -/
def sdkOfKey (p : String × Nat) : SdkObject :=
  { key := p.1, size := some p.2 }

/-! Helper lemmas about the paged listing loop. -/

lemma list_objects_go_token_iff (limit : Nat) (entries : List Entry) :
    ∀ count : Nat,
      (list_objects_go limit count entries).is_truncated =
        (list_objects_go limit count entries).continuation_token.isSome := by
  induction entries with
  | nil => intro count; simp [list_objects_go]
  | cons e rest ih =>
      intro count
      by_cases hc : count ≥ limit
      · simp [list_objects_go, hc]
      · by_cases hd : (e.metadata.is_dir || endsWithSlash e.path) = true
        · simp [list_objects_go, hc, hd, ih]
        · simp [list_objects_go, hc, hd, ih]

lemma list_objects_go_length (limit : Nat) (entries : List Entry) :
    ∀ count : Nat, count ≤ limit →
      (list_objects_go limit count entries).objects.length +
        (list_objects_go limit count entries).prefixes.length + count ≤
        limit := by
  induction entries with
  | nil => intro count h; simpa [list_objects_go] using h
  | cons e rest ih =>
      intro count h
      by_cases hc : count ≥ limit
      · simp [list_objects_go, hc]; omega
      · have h1 : count + 1 ≤ limit := by omega
        have := ih (count + 1) h1
        by_cases hd : (e.metadata.is_dir || endsWithSlash e.path) = true
        · simp only [list_objects_go, hc, if_false, hd, if_true,
            List.length_cons]
          omega
        · simp only [list_objects_go, hc, if_false, hd, if_true,
            List.length_cons, Bool.false_eq_true]
          omega

lemma list_objects_go_truncated_iff (limit : Nat) (entries : List Entry) :
    ∀ count : Nat, count ≤ limit →
      ((list_objects_go limit count entries).is_truncated = true ↔
        limit - count < entries.length) := by
  induction entries with
  | nil => intro count h; simp [list_objects_go]
  | cons e rest ih =>
      intro count h
      by_cases hc : count ≥ limit
      · simp [list_objects_go, hc]
      · have h1 : count + 1 ≤ limit := by omega
        have := ih (count + 1) h1
        by_cases hd : (e.metadata.is_dir || endsWithSlash e.path) = true
        · simp only [list_objects_go, hc, if_false, hd, if_true,
            List.length_cons]
          rw [this]; omega
        · simp only [list_objects_go, hc, if_false, hd, if_true,
            List.length_cons, Bool.false_eq_true]
          rw [this]; omega

/-- Claim C1: for every backend stream, prefix and page-limit request, the
page returned by `list_objects` holds at most the effective limit of
objects and directory prefixes combined; its truncation flag is true
exactly when its continuation token is present; and both are set exactly
when the entry stream was cut off at the limit (more entries than the
limit), absent when the stream was exhausted. -/
theorem list_objects_truncation_invariant (lister : String → List Entry)
    (pfx : String) (max_keys : Option Nat) :
    (list_objects lister pfx max_keys).objects.length +
        (list_objects lister pfx max_keys).prefixes.length ≤
        effective_limit max_keys ∧
    ((list_objects lister pfx max_keys).is_truncated = true ↔
      (list_objects lister pfx max_keys).continuation_token.isSome = true) ∧
    ((list_objects lister pfx max_keys).is_truncated = true ↔
      effective_limit max_keys <
        (lister (prefix_with_delimiter pfx)).length) := by
  unfold list_objects
  refine ⟨?_, ?_, ?_⟩
  · have := list_objects_go_length (effective_limit max_keys)
      (lister (prefix_with_delimiter pfx)) 0 (Nat.zero_le _)
    omega
  · rw [list_objects_go_token_iff]
  · have := list_objects_go_truncated_iff (effective_limit max_keys)
      (lister (prefix_with_delimiter pfx)) 0 (Nat.zero_le _)
    simpa using this

/-- Claim C2 counterexample: with `use_path_style = false`, the
CloudflareR2 arm of `create_operator` never enables virtual-host-style
addressing, while every other provider tag does — the batch-delete cap is
applied instead of, not in addition to, the addressing rule. -/
theorem create_operator_r2_ignores_path_style_flag :
    (sampleConn .CloudflareR2 false).use_path_style = false ∧
    (create_operator (sampleConn .CloudflareR2 false) "b").virtual_host_style
      = false ∧
    (create_operator (sampleConn .Custom false) "b").virtual_host_style
      = true :=
  ⟨rfl, rfl, rfl⟩

/-- Claim C2 (amended): for every provider tag other than CloudflareR2,
`create_operator` enables virtual-host-style addressing exactly when
`use_path_style` is false and sets no batch-delete cap; for CloudflareR2 it
sets the batch-delete cap of 700 and never enables virtual-host-style
addressing, regardless of `use_path_style`. -/
theorem create_operator_addressing_resolution
    (connection : S3ConnectionWithSecret) (bucket : String) :
    (connection.provider ≠ .CloudflareR2 →
      (create_operator connection bucket).virtual_host_style =
        !connection.use_path_style ∧
      (create_operator connection bucket).delete_max_size = none) ∧
    (connection.provider = .CloudflareR2 →
      (create_operator connection bucket).virtual_host_style = false ∧
      (create_operator connection bucket).delete_max_size = some 700) := by
  obtain ⟨i, n, provider, e, r, ak, sk, ssl, ups, ca, ua⟩ := connection
  cases provider <;> cases ups <;> simp [create_operator]

/-- Claim C2 amended, witnessed at concrete connections: AWS with
`use_path_style = false` gets virtual-host style; CloudflareR2 gets the
700-item cap. -/
theorem create_operator_addressing_resolution_witness :
    (create_operator (sampleConn .Aws false) "b").virtual_host_style
      = true ∧
    (create_operator (sampleConn .CloudflareR2 true) "b").delete_max_size
      = some 700 :=
  ⟨((create_operator_addressing_resolution (sampleConn .Aws false) "b").1
      (by decide)).1,
    ((create_operator_addressing_resolution (sampleConn .CloudflareR2 true)
      "b").2 rfl).2⟩

/-! Helper lemmas about the modelled key-value store. -/

lemma lookupKey_removeKey (k k' : String) :
    ∀ store : List (String × List Nat),
      lookupKey (removeKey store k') k =
        if k = k' then none else lookupKey store k := by
  intro store
  induction store with
  | nil => simp [lookupKey, removeKey]
  | cons p rest ih =>
      obtain ⟨a, b⟩ := p
      by_cases ha : a = k'
      · rw [removeKey, if_pos ha, ih]
        by_cases hk : k = k'
        · simp [hk]
        · have hka : ¬ k = a := fun hc => hk (ha ▸ hc)
          simp [hk, lookupKey, hka]
      · rw [removeKey, if_neg ha]
        by_cases hka : k = a
        · have hk : ¬ k = k' := fun hc => ha (hka ▸ hc)
          simp [lookupKey, hka, hk, ha]
        · simp only [lookupKey, if_neg hka]
          exact ih

/-- Lookup after overwriting insertion. -/
lemma lookupKey_setKey (store : List (String × List Nat)) (k k' : String)
    (v : List Nat) :
    lookupKey (setKey store k' v) k =
      if k = k' then some v else lookupKey store k := by
  by_cases hk : k = k'
  · simp [setKey, lookupKey, hk]
  · rw [setKey, lookupKey, if_neg hk, lookupKey_removeKey]
    simp [hk]

/-- Claim C3: `rename_object` performs exactly a copy of `old_key` to
`new_key` followed by a delete of `old_key`, in that order, with no
rollback: when both calls succeed, `old_key` is gone and `new_key` holds
the former content of `old_key`; when the delete fails after a successful
copy, the operation returns an error and both keys hold that content. -/
theorem rename_object_copy_then_delete (b : Backend)
    (old_key new_key : String) (content : List Nat)
    (hold : lookupKey b.store old_key = some content)
    (hne : old_key ≠ new_key) (hcopy : b.copy_fails = false) :
    (rename_object b old_key new_key).2.1 =
      [.copy old_key new_key, .deleteKey old_key] ∧
    (b.delete_fails = false →
      (rename_object b old_key new_key).2.2 = none ∧
      lookupKey (rename_object b old_key new_key).1.store old_key = none ∧
      lookupKey (rename_object b old_key new_key).1.store new_key =
        some content) ∧
    (b.delete_fails = true →
      ((rename_object b old_key new_key).2.2).isSome = true ∧
      lookupKey (rename_object b old_key new_key).1.store old_key =
        some content ∧
      lookupKey (rename_object b old_key new_key).1.store new_key =
        some content) := by
  have hns : ¬ new_key = old_key := fun hc => hne hc.symm
  cases hdf : b.delete_fails <;>
    simp [rename_object, copy_object, delete_object, hcopy, hold, hdf,
      lookupKey_setKey, lookupKey_removeKey, hne, hns]

/-- Claim C3 witness: on the concrete one-object store, a clean rename
removes `old`, and a rename whose delete faults leaves `old` (and `new`)
holding the content while reporting an error. -/
theorem rename_object_copy_then_delete_witness :
    lookupKey (rename_object (sampleBackend false) "old" "new").1.store
      "old" = none ∧
    lookupKey (rename_object (sampleBackend true) "old" "new").1.store
      "old" = some [1, 2, 3] ∧
    ((rename_object (sampleBackend true) "old" "new").2.2).isSome = true :=
  ⟨((rename_object_copy_then_delete (sampleBackend false) "old" "new"
      [1, 2, 3] (by decide) (by decide) rfl).2.1 rfl).2.1,
    ((rename_object_copy_then_delete (sampleBackend true) "old" "new"
      [1, 2, 3] (by decide) (by decide) rfl).2.2 rfl).2.1,
    ((rename_object_copy_then_delete (sampleBackend true) "old" "new"
      [1, 2, 3] (by decide) (by decide) rfl).2.2 rfl).1⟩

/-! Helper lemmas about the stats pagination loop. -/

lemma pageSize_append (a b : List SdkObject) :
    pageSize (a ++ b) = pageSize a + pageSize b := by
  simp [pageSize]

lemma get_bucket_stats_go_spec :
    ∀ (fuel : Nat) (pages : List (List SdkObject)) (idx n s : Nat),
      pages.length - idx ≤ fuel →
      get_bucket_stats_go pages idx n s =
        (n + ((pages.drop idx).flatten).length,
          s + pageSize (pages.drop idx).flatten) := by
  intro fuel
  induction fuel with
  | zero =>
      intro pages idx n s hf
      have hlen : pages.length ≤ idx := by omega
      rw [get_bucket_stats_go]
      simp only [list_objects_v2, Option.getD, Option.some.injEq,
        decide_eq_true_eq]
      rw [dif_neg (by omega)]
      rw [List.getD_eq_default _ _ hlen, List.drop_eq_nil_of_le hlen]
      simp [pageSize]
  | succ fuel ih =>
      intro pages idx n s hf
      rw [get_bucket_stats_go]
      simp only [list_objects_v2, Option.getD, Option.some.injEq,
        decide_eq_true_eq]
      by_cases h : idx + 1 < pages.length
      · rw [dif_pos h]
        have hidx : idx < pages.length := by omega
        split
        · next t ht =>
            rw [if_pos h] at ht
            cases ht
            rw [ih pages (idx + 1) _ _ (by omega)]
            rw [List.getD_eq_getElem _ _ hidx,
              List.drop_eq_getElem_cons hidx, List.flatten_cons,
              List.length_append, pageSize_append]
            simp only [Prod.mk.injEq]
            constructor <;> omega
        · next ht => rw [if_pos h] at ht; exact absurd ht (by simp)
      · rw [dif_neg h]
        by_cases hidx : idx < pages.length
        · have hdrop : pages.drop idx = [pages[idx]] := by
            rw [List.drop_eq_getElem_cons hidx]
            rw [List.drop_eq_nil_of_le (by omega)]
          rw [List.getD_eq_getElem _ _ hidx, hdrop]
          simp [pageSize]
        · have hlen : pages.length ≤ idx := by omega
          rw [List.getD_eq_default _ _ hlen, List.drop_eq_nil_of_le hlen]
          simp [pageSize]

/-- Claim C4: `get_bucket_stats` paginates the whole listing through the
continuation-token protocol and returns the exact object count and exact
total byte size of the bucket's contents, however the backend splits them
into pages; in particular an empty bucket yields count `0` and size `0`. -/
theorem get_bucket_stats_exact (pages : List (List SdkObject))
    (bucket_name : String) :
    get_bucket_stats pages bucket_name =
      { name := bucket_name
        object_count := pages.flatten.length
        total_size := pageSize pages.flatten } := by
  unfold get_bucket_stats
  rw [get_bucket_stats_go_spec pages.length pages 0 0 0 (by omega)]
  simp

/-- Claim C5 counterexample: both text-preview failures come out of the
code as the generic backend kind `AppError::S3Error` — the embedded error
taxonomy (from `error.rs`) has no dedicated `SizeLimitExceeded` or
`EncodingError` kinds, so a size-limit failure and a decode failure are
distinguishable only by message text, not by error kind. -/
theorem get_object_content_as_text_generic_error_kinds :
    (get_object_content_as_text (fun _ => none) 10 [] 5).2 =
      .error (.S3Error
        "File too large for text preview: 10 bytes (max: 5 bytes)") ∧
    (get_object_content_as_text (fun _ => none) 2 [255] 5).2 =
      .error (.S3Error "Not a valid UTF-8 text file") := by
  exact ⟨rfl, rfl⟩

/-- Claim C5 (amended): `get_object_content_as_text` stats the object
first and, whenever the reported size exceeds `max_size`, fails without
performing any body read; when the body reads but is not valid UTF-8 it
fails with a decode-specific message — but both failures are reported
through the generic backend error kind (`S3Error`), there being no
dedicated size-limit or encoding kinds in the taxonomy. -/
theorem get_object_content_as_text_spec
    (utf8_decode : List Nat → Option String) (stat_size : Nat)
    (body : List Nat) (max_size : Nat) :
    (stat_size > max_size →
      get_object_content_as_text utf8_decode stat_size body max_size =
        ([.statCall],
          .error (.S3Error ("File too large for text preview: " ++
            toString stat_size ++ " bytes (max: " ++ toString max_size ++
            " bytes)")))) ∧
    (stat_size ≤ max_size → utf8_decode body = none →
      get_object_content_as_text utf8_decode stat_size body max_size =
        ([.statCall, .readCall],
          .error (.S3Error "Not a valid UTF-8 text file"))) ∧
    (∀ text, stat_size ≤ max_size → utf8_decode body = some text →
      get_object_content_as_text utf8_decode stat_size body max_size =
        ([.statCall, .readCall], .ok text)) := by
  refine ⟨?_, ?_, ?_⟩
  · intro h
    simp [get_object_content_as_text, h]
  · intro h hdec
    simp [get_object_content_as_text, hdec, show ¬ stat_size > max_size
      by omega]
  · intro text h hdec
    simp [get_object_content_as_text, hdec, show ¬ stat_size > max_size
      by omega]

/-- Claim C5 amended, witnessed: a small valid object is read and decoded
whole. -/
theorem get_object_content_as_text_spec_witness :
    get_object_content_as_text (fun _ => some "ok") 2 [111, 107] 1048576 =
      ([.statCall, .readCall], .ok "ok") :=
  (get_object_content_as_text_spec (fun _ => some "ok") 2 [111, 107]
    1048576).2.2 "ok" (by decide) rfl

/-- Claim C6: `create_bucket` computes the effective region as the
explicit argument if present, else the connection's region; when that
region equals `us-east-1` the request carries no location constraint, and
for any other region string it carries a constraint built from exactly
that string. -/
theorem create_bucket_location_constraint
    (connection : S3ConnectionWithSecret) (bucket_name : String)
    (region : Option String) :
    (create_bucket connection bucket_name region).bucket = bucket_name ∧
    (region.getD connection.region = "us-east-1" →
      (create_bucket connection bucket_name region).location_constraint =
        none) ∧
    (region.getD connection.region ≠ "us-east-1" →
      (create_bucket connection bucket_name region).location_constraint =
        some (region.getD connection.region)) := by
  refine ⟨?_, ?_, ?_⟩
  · by_cases h : region.getD connection.region = "us-east-1" <;>
      simp [create_bucket, h]
  · intro h
    simp [create_bucket, h]
  · intro h
    simp [create_bucket, h]

/-- Claim C6 witness: with the connection's region `us-east-1` and no
override, no constraint is sent; with an explicit `eu-west-1`, that
constraint is sent. -/
theorem create_bucket_location_constraint_witness :
    (create_bucket (sampleConn .Aws false) "b" none).location_constraint =
      none ∧
    (create_bucket (sampleConn .Aws false) "b"
        (some "eu-west-1")).location_constraint = some "eu-west-1" :=
  ⟨(create_bucket_location_constraint (sampleConn .Aws false) "b"
      none).2.1 rfl,
    (create_bucket_location_constraint (sampleConn .Aws false) "b"
      (some "eu-west-1")).2.2 (by decide)⟩

/-- Claim C7: `head_bucket` maps a successful backend response to
`Ok(true)`, maps every backend failure the code recognizes as "not found"
(message containing `404` or `NotFound`) to `Ok(false)` rather than an
error, and propagates every other backend failure as an error. -/
theorem head_bucket_not_found_classification :
    head_bucket .success = .ok true ∧
    (∀ msg, is_not_found_error msg = true →
      head_bucket (.failure msg) = .ok false) ∧
    (∀ msg, is_not_found_error msg = false →
      head_bucket (.failure msg) = .error (.S3Error msg)) := by
  refine ⟨rfl, ?_, ?_⟩ <;> intro msg h <;> simp [head_bucket, h]

/-- Claim C7 witness: a `404` failure yields `Ok(false)`; an unrelated
failure propagates as an error. -/
theorem head_bucket_not_found_classification_witness :
    head_bucket (.failure "HTTP 404: no such bucket") = .ok false ∧
    head_bucket (.failure "access denied") =
      .error (.S3Error "access denied") :=
  ⟨head_bucket_not_found_classification.2.1 "HTTP 404: no such bucket"
      (by decide),
    head_bucket_not_found_classification.2.2 "access denied" (by decide)⟩

/-- Claim C8 counterexample: the effective limit is
`max_keys.unwrap_or(500).min(1000)`, which applies no lower clamp — a
caller-supplied `0` yields effective limit `0` (not `1`), and the page
then truncates immediately, returning no entries. -/
theorem effective_limit_no_lower_clamp :
    effective_limit (some 0) = 0 ∧
    list_objects (fun _ => [entryOfKey ("k", 1)]) "" (some 0) =
      { objects := [], prefixes := [],
        continuation_token := some "offset:0", is_truncated := true } := by
  exact ⟨rfl, rfl⟩

/-- Claim C8 (amended): `list_objects` clamps the effective page limit to
at most 1000 and defaults to 500 when no value is supplied, but applies no
lower bound: a supplied value below 1 (i.e. 0) is used as-is. -/
theorem effective_limit_clamp (max_keys : Option Nat) :
    effective_limit max_keys ≤ 1000 ∧
    effective_limit none = 500 ∧
    ∀ n : Nat, effective_limit (some n) = min n 1000 := by
  refine ⟨Nat.min_le_right _ _, rfl, fun n => rfl⟩

/-! Helper lemmas for the classification comparison. -/

lemma pageSize_map_sdkOfKey (contents : List (String × Nat)) :
    pageSize (contents.map sdkOfKey) = (contents.map fun p => p.2).sum := by
  simp only [pageSize, List.map_map]
  rfl

lemma list_all_objects_go_no_markers (contents : List (String × Nat))
    (h : ∀ p ∈ contents, endsWithSlash p.1 = false) :
    (list_all_objects_go (contents.map entryOfKey)).objects.length =
      contents.length ∧
    ((list_all_objects_go (contents.map entryOfKey)).objects.map
        fun o => o.size) = contents.map fun p => p.2 := by
  induction contents with
  | nil => simp [list_all_objects_go]
  | cons p rest ih =>
      have hp : endsWithSlash p.1 = false := h p (by simp)
      have hr := ih fun q hq => h q (by simp [hq])
      simp [list_all_objects_go, entryOfKey, hp, entryToObject, hr.1, hr.2]

/-- Claim C9 counterexample: a directory-marker key `a/` of size 0 is
classified as a prefix (not an object) by `list_all_objects`, yet
`get_bucket_stats` counts it as an object — the two enumeration paths
disagree on classification semantics for marker entries. -/
theorem get_bucket_stats_counts_directory_markers :
    (get_bucket_stats [[sdkOfKey ("a/", 0)]] "b").object_count = 1 ∧
    (list_all_objects (fun _ => [entryOfKey ("a/", 0)]) "").objects.length
      = 0 ∧
    (list_all_objects (fun _ => [entryOfKey ("a/", 0)]) "").prefixes =
      ["a/"] := by
  have h := get_bucket_stats_go_spec 1 [[sdkOfKey ("a/", 0)]] 0 0 0
    (by decide)
  refine ⟨?_, rfl, rfl⟩
  unfold get_bucket_stats
  rw [h]
  simp [pageSize, sdkOfKey]

/-- Claim C9 (amended): the two enumeration paths agree on entries that
are not directory markers — for contents whose keys do not end in `/`
(and are not backend-marked directories), `get_bucket_stats` counts
exactly the entries `list_all_objects` classifies as objects and sums
exactly their sizes; but a directory-marker entry is counted as an object
by `get_bucket_stats` while `list_all_objects` classifies it as a
prefix. -/
theorem stats_and_listing_agree_without_markers
    (contents : List (String × Nat)) (bucket_name : String)
    (h : ∀ p ∈ contents, endsWithSlash p.1 = false) :
    (get_bucket_stats [contents.map sdkOfKey] bucket_name).object_count =
      (list_all_objects (fun _ => contents.map entryOfKey)
        "").objects.length ∧
    (get_bucket_stats [contents.map sdkOfKey] bucket_name).total_size =
      ((list_all_objects (fun _ => contents.map entryOfKey) "").objects.map
        fun o => o.size).sum := by
  have hs := get_bucket_stats_go_spec 1 [contents.map sdkOfKey] 0 0 0
    (by simp)
  have hl := list_all_objects_go_no_markers contents h
  constructor
  · simp [get_bucket_stats, hs, list_all_objects, prefix_with_delimiter,
      hl.1]
  · simp [get_bucket_stats, hs, list_all_objects, prefix_with_delimiter,
      hl.2, pageSize_map_sdkOfKey]

/-- Claim C9 amended, witnessed on two plain objects. -/
theorem stats_and_listing_agree_without_markers_witness :
    (get_bucket_stats [([("a", 3), ("b", 5)] : List (String × Nat)).map
        sdkOfKey] "bk").object_count =
      (list_all_objects
        (fun _ => ([("a", 3), ("b", 5)] : List (String × Nat)).map
          entryOfKey) "").objects.length :=
  (stats_and_listing_agree_without_markers [("a", 3), ("b", 5)] "bk"
    (by decide)).1

/-- Claim C10: the `delete_objects` command deletes the given keys
strictly sequentially in list order and aborts on the first failure: if
every delete succeeds it attempts exactly the given keys in order and
returns success; if the delete of the key at index `i` is the first to
fail, it returns that error having attempted exactly the first `i + 1`
keys — all keys before index `i` deleted, none after index `i`
attempted. -/
theorem delete_objects_sequential_abort (fail : String → Option AppError)
    (keys : List String) :
    ((∀ k ∈ keys, fail k = none) →
      delete_objects fail keys = (keys, none)) ∧
    (∀ i e key, keys[i]? = some key → fail key = some e →
      (∀ j k, j < i → keys[j]? = some k → fail k = none) →
      delete_objects fail keys = (keys.take (i + 1), some e)) := by
  constructor
  · intro h
    induction keys with
    | nil => rfl
    | cons key rest ih =>
        have hk : fail key = none := h key (by simp)
        have hr := ih fun k hk' => h k (by simp [hk'])
        simp [delete_objects, hk, hr]
  · intro i e key hkey hfail hbefore
    induction keys generalizing i with
    | nil => simp at hkey
    | cons a rest ih =>
        cases i with
        | zero =>
            simp only [List.getElem?_cons_zero, Option.some.injEq] at hkey
            subst hkey
            simp [delete_objects, hfail]
        | succ i' =>
            have ha : fail a = none := hbefore 0 a (by omega) (by simp)
            have hkey' : rest[i']? = some key := by simpa using hkey
            have hbefore' : ∀ j k, j < i' → rest[j]? = some k →
                fail k = none :=
              fun j k hj hji => hbefore (j + 1) k (by omega)
                (by simpa using hji)
            have hr := ih i' hkey' hbefore'
            simp [delete_objects, ha, hr]

/-- Claim C10 witness: with a delete fault on `b`, the command deletes `a`,
fails on `b`, and never attempts `c`; with no faults it deletes all keys
and succeeds. -/
theorem delete_objects_sequential_abort_witness :
    delete_objects (fun _ => none) ["a", "b"] = (["a", "b"], none) ∧
    delete_objects
        (fun k => if k = "b" then some (.S3Error "boom") else none)
        ["a", "b", "c"] = (["a", "b"], some (.S3Error "boom")) :=
  ⟨(delete_objects_sequential_abort (fun _ => none) ["a", "b"]).1
      (by intro k _; rfl),
    (delete_objects_sequential_abort
        (fun k => if k = "b" then some (.S3Error "boom") else none)
        ["a", "b", "c"]).2 1 (.S3Error "boom") "b" (by decide) (by decide)
      (by
        intro j k hj hjk
        interval_cases j
        simp only [List.getElem?_cons_zero, Option.some.injEq] at hjk
        subst hjk
        rfl)⟩

end Baul
